import Mathlib

/-!
Verification development for the `@trenskow/arguments-parser` package
(`src/lib/index.js` / `src/unnamed/part_000`, the two being successive
revisions of the same file; the claims reference the later revision, which
adds short aliases and the `variadic` policy).

The parser is shallowly embedded: the external collaborators (the `isvalid`
schema validator, the `caseit` case converter, the printer and the process
exit primitive) are abstracted exactly at their interface boundary, as in
spec section 6.  Schemas are modelled after `formalize`/`keyPaths` have run:
a schema is its ordered list of flattened non-empty key-paths, each carrying
the attributes the engine reads (`type`, `required`, `short`).  The case
converter is a parameter `ck : String → String`.  Help rendering is modelled
by the observable outcome: the exit code and the error message (and, for the
command dispatcher, the listed command entries).  String slicing such as
`args[idx].slice(0, 1)` is modelled on the character list `String.data`.
-/

/-- Decidable equality for `Except`, used to evaluate the engine on concrete
inputs. -/
instance {ε α : Type} [DecidableEq ε] [DecidableEq α] :
    DecidableEq (Except ε α) := fun a b =>
  match a, b with
  | .error e, .error f =>
      if h : e = f then .isTrue (by rw [h])
      else .isFalse (fun hh => h (by cases hh; rfl))
  | .error _, .ok _ => .isFalse (fun h => Except.noConfusion h)
  | .ok _, .error _ => .isFalse (fun h => Except.noConfusion h)
  | .ok x, .ok y =>
      if h : x = y then .isTrue (by rw [h])
      else .isFalse (fun hh => h (by cases hh; rfl))

namespace ArgsEngine

/-- Schema value types the engine inspects (`Object`, `String`, `Boolean`,
`Array` in the JavaScript source; `other` covers the remaining constructors,
which the engine never distinguishes). -/
inductive SType where
  | object
  | string
  | boolean
  | array
  | other
deriving DecidableEq, Repr

/-- One flattened key-path entry of a formalized schema, with the attributes
read by the engine: the key-path itself, its declared `type`, its `required`
flag and its optional `short` alias. -/
structure FieldSchema where
  keyPath : String
  type : SType
  required : Bool
  short : Option String
deriving DecidableEq, Repr

/-- A raw scalar value as stored by the option scanner before validation:
either the literal `true` of a boolean flag or a consumed token. -/
inductive Value where
  | b : Bool → Value
  | s : String → Value
deriving DecidableEq, Repr

/-- Raw accumulated data for one key: a scalar after one occurrence, an
array after two or more (`data[key]` in the source). -/
inductive RawValue where
  | scalar : Value → RawValue
  | array : List Value → RawValue
deriving DecidableEq, Repr

/-- The raw data object handed to the external validator, as an ordered
association list (JavaScript object with string keys). -/
abbrev Data := List (String × RawValue)

/-- Lookup in a JavaScript-object-like association list. -/
def objLookup {α : Type} : List (String × α) → String → Option α
  | [], _ => none
  | (k, v) :: rest, key => if k = key then some v else objLookup rest key

/-- Assignment `obj[key] = value` on a JavaScript-object-like association
list: replaces the binding in place when the key exists, else appends
(string keys keep insertion order in JavaScript objects). -/
def objInsert {α : Type} : List (String × α) → String → α → List (String × α)
  | [], key, v => [(key, v)]
  | (k, w) :: rest, key, v =>
      if k = key then (key, v) :: rest else (k, w) :: objInsert rest key v

/-- Inversion `Object.fromEntries(Object.entries(m).map(([k, v]) => [v, k]))`:
inverts an object by folding assignments of `(value, key)` into a fresh object. -/
def objInvert (m : List (String × String)) : List (String × String) :=
  m.foldl (fun acc kv => objInsert acc kv.2 kv.1) []

/-- The value-accumulation step of the option scanner (source lines 314-321
of the later revision): first occurrence stores the scalar, a second
promotes to a two-element array, further occurrences push. -/
def accInsert (data : Data) (key : String) (v : Value) : Data :=
  match objLookup data key with
  | none => objInsert data key (.scalar v)
  | some (.array vs) => objInsert data key (.array (vs ++ [v]))
  | some (.scalar u) => objInsert data key (.array [u, v])

/-- Modelled from the spec's words, for comparison with `accInsert`: the
storage the spec prescribes for a key-path after a given sequence of
occurrence values — a scalar after exactly one occurrence, the sequence in
first-seen order after two or more. -/
def specAccumulated : List Value → RawValue
  | [v] => .scalar v
  | vs => .array vs

/-- The `--` tokenizer split (source lines 172-178): `args.indexOf('--')`,
then everything after the first `--` is joined with spaces into
`nonOptions` and the scan stream is truncated before it. -/
def splitNonOptions : List String → List String × Option String
  | [] => ([], none)
  | a :: rest =>
      if a = "--" then ([], some (String.intercalate " " rest))
      else
        let p := splitNonOptions rest
        (a :: p.1, p.2)

/-- Membership test `keyPaths(schema).all().includes(key)`: the unfiltered
key-path list of a formalized schema contains the empty root key-path in
addition to the flattened field key-paths. -/
def keyIsKnown (fields : List FieldSchema) (key : String) : Bool :=
  key = "" || fields.any (fun f => f.keyPath = key)

/-- Lookup `keyPaths(schema).get(key).type` for a known key: the empty key-path is
the root object schema; otherwise the declared type of the matching field. -/
def keyType (fields : List FieldSchema) (key : String) : SType :=
  if key = "" then .object
  else
    match fields.find? (fun f => f.keyPath = key) with
    | some f => f.type
    | none => .other

/-- The short-alias registration pass (source lines 186-203): for each
key-path with a `short` attribute, the source checks
`shortOptions[keyPathSchema.short]` for truthiness and throws
`Short option "<short>" already used.` when set, then assigns
`shortOptions[keyPath] = short` — note the check indexes by the alias while
the assignment indexes by the key-path, exactly as in the source. -/
def buildShortOptions (fields : List FieldSchema) :
    Except String (List (String × String)) :=
  fields.foldlM
    (fun acc f =>
      match f.short with
      | none => pure acc
      | some sh =>
          if (objLookup acc sh).isSome then
            Except.error ("Short option \"" ++ sh ++ "\" already used.")
          else
            pure (objInsert acc f.keyPath sh))
    []

/-- Key resolution for one option token (source lines 285-291): a token
starting with `--` is case-converted from its tail after the dashes; else a
registered short alias (looked up in the inverted alias map) resolves and is
case-converted; else the tail after the single dash is the key as-is. -/
def resolveKey (ck : String → String) (shortOpts : List (String × String))
    (a : String) : String :=
  if (a.data.drop 1).take 1 = ['-'] then ck (String.mk (a.data.drop 2))
  else
    let key0 := String.mk (a.data.drop 1)
    match objLookup shortOpts key0 with
    | some kp => ck kp
    | none => key0

/-- What the scanner does with one leading token (source lines 276-312):
push to `rest`, fail on an unknown option, take a boolean flag, or demand a
following value token. -/
inductive StepKind where
  | pushRest
  | unknown : String → StepKind
  | boolOpt : String → StepKind
  | valueOpt : String → StepKind
deriving DecidableEq, Repr

/-- Classify one token against the schema: tokens not starting with `-` go
to `rest`; otherwise the token resolves through `resolveKey` (against the
already-inverted alias map) and is checked against the schema key-paths and
the declared type. -/
def classifyToken (ck : String → String) (fields : List FieldSchema)
    (shortOpts : List (String × String)) (a : String) : StepKind :=
  if a.data.take 1 ≠ ['-'] then .pushRest
  else
    let key := resolveKey ck shortOpts a
    if ¬ keyIsKnown fields key then .unknown ("Unknown option: " ++ a ++ ".")
    else if keyType fields key = .boolean then .boolOpt key
    else .valueOpt key

/-- Outcome of the option scan loop: either a structured error routed
through help rendering (always exit code 1), or the raw data and leftover
`rest` tokens. -/
inductive ScanOut where
  | helpExit : String → ScanOut
  | scanned : Data → List String → ScanOut
deriving DecidableEq, Repr

/-- The option scan loop (source lines 274-322).  Faithful to the source,
the alias map is re-inverted each time an option token is seen (the
`Object.fromEntries` inversion sits inside the loop body), so it alternates
orientation between successive option tokens.  A non-boolean option
consumes the immediately following token unless it is absent or starts with
`--`, in which case the scan fails with a missing-argument error. -/
def scanLoop (ck : String → String) (fields : List FieldSchema) :
    List (String × String) → List String → Data → List String → ScanOut
  | _, [], data, rest => .scanned data rest
  | so, [a], data, rest =>
      match classifyToken ck fields (objInvert so) a with
      | .pushRest => .scanned data (rest ++ [a])
      | .unknown msg => .helpExit msg
      | .boolOpt key => .scanned (accInsert data key (.b true)) rest
      | .valueOpt _ => .helpExit ("Argument missing for option: " ++ a ++ ".")
  | so, a :: v :: args2, data, rest =>
      match classifyToken ck fields (objInvert so) a with
      | .pushRest => scanLoop ck fields so (v :: args2) data (rest ++ [a])
      | .unknown msg => .helpExit msg
      | .boolOpt key =>
          scanLoop ck fields (objInvert so) (v :: args2)
            (accInsert data key (.b true)) rest
      | .valueOpt key =>
          if v.data.take 2 = ['-', '-'] then
            .helpExit ("Argument missing for option: " ++ a ++ ".")
          else
            scanLoop ck fields (objInvert so) args2
              (accInsert data key (.s v)) rest

/-- Observable outcome of the `options` operation: either help rendered and
the process exited (with code and optional error message), or a normal
return carrying the raw data handed to the validator, the `rest` tokens and
the `nonOptions` string.  The call into the external `isvalid` validator is
out of scope (spec section 6); on validator success the source returns the
validated object together with `rest` and `nonOptions` unchanged, so `done`
carries exactly the raw data the validator receives. -/
inductive OptionsOutcome where
  | helpExit : Nat → Option String → OptionsOutcome
  | done : Data → List String → Option String → OptionsOutcome
deriving DecidableEq, Repr

/-- The `variadic` policy gate (source lines 324-337), evaluated once after
scanning, only when `rest` is non-empty: `allow` keeps `rest` as-is,
`ignore` discards it, and the `switch` default (`deny`, also taken for any
unrecognised policy string and when no policy is given, via
`options.variadic || 'deny'`) renders help with an unexpected-argument error
naming `args[0]`, the first token of the truncated argument vector. -/
def variadicGate (variadic : Option String) (firstArg : String)
    (data : Data) (rest : List String) (nonOptions : Option String) :
    OptionsOutcome :=
  if rest ≠ [] then
    if variadic = some "allow" then .done data rest nonOptions
    else if variadic = some "ignore" then .done data [] nonOptions
    else .helpExit 1 (some ("Unexpected argument: " ++ firstArg ++ "."))
  else .done data rest nonOptions

/-- The `options` operation after the `--` split (source lines 180-337):
register short aliases (which may throw a construction error), honour a
leading `--help`, run the scan loop, then gate the leftover `rest` tokens by
the `variadic` policy. -/
def optionsAfterSplit (ck : String → String) (fields : List FieldSchema)
    (variadic : Option String) (args : List String)
    (nonOptions : Option String) : Except String OptionsOutcome :=
  match buildShortOptions fields with
  | .error e => .error e
  | .ok shortOpts =>
      if args.head? = some "--help" then .ok (.helpExit 0 none)
      else
        match scanLoop ck fields shortOpts args [] [] with
        | .helpExit msg => .ok (.helpExit 1 (some msg))
        | .scanned data rest =>
            .ok (variadicGate variadic (args.headD "") data rest nonOptions)

/-- The full `options` operation (source lines 166-358): split the argument
vector at the first literal `--` token, then run the post-split pipeline on
the truncated vector. -/
def optionsRun (ck : String → String) (fields : List FieldSchema)
    (variadic : Option String) (args0 : List String) :
    Except String OptionsOutcome :=
  let p := splitNonOptions args0
  optionsAfterSplit ck fields variadic p.1 p.2

/-- Replace the `nonOptions` component of a normal `options` return, leaving
help exits and construction errors unchanged. -/
def withNonOptions (no : Option String) :
    Except String OptionsOutcome → Except String OptionsOutcome
  | .ok (.done d r _) => .ok (.done d r no)
  | out => out

/-- The construction-time checks of the `values` operation (source lines
375-403), run field by field in declared order before any argument binding:
the root schema must be `Object`; `lastNonRequiredIndex` is declared as `-1`
and never reassigned anywhere in the source, so the required-ordering guard
`schema.required && idx > lastNonRequiredIndex + 1` is evaluated against the
constant `-1` at every index; each field must be `String`-typed. -/
def valuesCheckFields (lastNonRequiredIndex : Int) :
    List FieldSchema → Nat → Except String Unit
  | [], _ => .ok ()
  | f :: rest, idx =>
      if f.required ∧ (idx : Int) > lastNonRequiredIndex + 1 then
        .error "Required arguments must come first."
      else if f.type ≠ .string then
        .error "Schema must be an object of strings."
      else valuesCheckFields lastNonRequiredIndex rest (idx + 1)

/-- The construction phase of the `values` operation: root type check, then
the per-field checks starting from index 0 with `lastNonRequiredIndex = -1`.
Binding of the remaining argument tokens by index and the call into the
external validator follow only when this phase succeeds. -/
def valuesConstruct (rootType : SType) (fields : List FieldSchema) :
    Except String Unit :=
  if rootType ≠ .object then .error "Schema must be an object."
  else valuesCheckFields (-1) fields 0

/-- Observable outcome of the `command` operation: help rendered and the
process exited (with code, the rendered command-list entries and an optional
error message), or dispatch into the matched handler with the remaining
tokens (the handler itself is external). -/
inductive CommandOutcome where
  | helpExit : Nat → List (String × String) → Option String → CommandOutcome
  | dispatch : String → List String → CommandOutcome
deriving DecidableEq, Repr

/-- Lexicographic less-or-equal on character lists by code point, the order
induced by the JavaScript string comparison used in the source's sort
comparators (`a.name > b.name ? 1 : -1`). -/
def jsStrLe : List Char → List Char → Bool
  | [], _ => true
  | _ :: _, [] => false
  | a :: as, b :: bs =>
      if a.toNat < b.toNat then true
      else if b.toNat < a.toNat then false
      else jsStrLe as bs

/-- Ordering of help rows by their displayed command name. -/
def nameLe (a b : String × String) : Prop := jsStrLe a.1.data b.1.data = true

instance : DecidableRel nameLe := fun a b =>
  inferInstanceAs (Decidable (jsStrLe a.1.data b.1.data = true))

instance : IsTotal (String × String) nameLe := by
  constructor
  intro a b
  show jsStrLe a.1.data b.1.data = true ∨ jsStrLe b.1.data a.1.data = true
  generalize a.1.data = x
  generalize b.1.data = y
  induction x generalizing y with
  | nil => left; rfl
  | cons c cs ih =>
      cases y with
      | nil => right; rfl
      | cons d ds =>
          rcases Nat.lt_trichotomy c.toNat d.toNat with h | h | h
          · left; simp [jsStrLe, h]
          · rcases ih ds with h2 | h2
            · left; simp [jsStrLe, h, Nat.lt_irrefl, h2]
            · right; simp [jsStrLe, h, Nat.lt_irrefl, h2]
          · right; simp [jsStrLe, h]

instance : IsTrans (String × String) nameLe := by
  constructor
  intro a b c hab hbc
  show jsStrLe a.1.data c.1.data = true
  rw [show nameLe a b ↔ jsStrLe a.1.data b.1.data = true from Iff.rfl] at hab
  rw [show nameLe b c ↔ jsStrLe b.1.data c.1.data = true from Iff.rfl] at hbc
  revert hab hbc
  generalize a.1.data = x
  generalize b.1.data = y
  generalize c.1.data = z
  induction x generalizing y z with
  | nil => intro _ _; rfl
  | cons p ps ih =>
      intro hab hbc
      cases y with
      | nil => simp [jsStrLe] at hab
      | cons q qs =>
          cases z with
          | nil => simp [jsStrLe] at hbc
          | cons r rs =>
              rcases Nat.lt_trichotomy p.toNat q.toNat with h1 | h1 | h1
              · rcases Nat.lt_trichotomy q.toNat r.toNat with h2 | h2 | h2
                · simp [jsStrLe, Nat.lt_trans h1 h2]
                · simp [jsStrLe, h2 ▸ h1]
                · simp [jsStrLe, Nat.lt_asymm h2, h2] at hbc
              · simp only [jsStrLe, h1, Nat.lt_irrefl, if_false, ite_self] at hab
                rcases Nat.lt_trichotomy q.toNat r.toNat with h2 | h2 | h2
                · simp [jsStrLe, h1 ▸ h2]
                · have hpr : p.toNat = r.toNat := h1.trans h2
                  simp only [jsStrLe, h2, Nat.lt_irrefl, if_false, ite_self] at hbc
                  simp [jsStrLe, hpr, Nat.lt_irrefl, ih qs rs hab hbc]
                · simp [jsStrLe, Nat.lt_asymm h2, h2] at hbc
              · simp [jsStrLe, Nat.lt_asymm h1, h1] at hab

/-- The command-list help body (source lines 116-132): each command key is
kebab-converted (`ck2` is the kebab-style case converter), paired with its
description or the `No description` default, and the rows are sorted
ascending by displayed name. -/
def commandList (ck2 : String → String) (commands : List (String × Option String)) :
    List (String × String) :=
  List.insertionSort nameLe
    (commands.map (fun c => (ck2 c.1, c.2.getD "No description")))

/-- The `command` operation (source lines 112-164): empty remaining
arguments render help and exit 0; a leading `--help` renders help and exits
0; otherwise the leading token is case-converted (`ck`, default style) and
looked up in the command table — a miss renders help with a
command-not-found error and exits 1, a hit dispatches into the handler over
the remaining tokens. -/
def commandRun (ck ck2 : String → String)
    (commands : List (String × Option String)) (args : List String) :
    CommandOutcome :=
  if args = [] then .helpExit 0 (commandList ck2 commands) none
  else if args.head? = some "--help" then .helpExit 0 (commandList ck2 commands) none
  else
    let tool := ck (args.headD "")
    if commands.any (fun c => c.1 = tool) then .dispatch tool (args.drop 1)
    else
      .helpExit 1 (commandList ck2 commands)
        (some (args.headD "" ++ ": Command not found"))

/-- Observable outcome of the `empty` operation: a normal return, or help
rendered and the process exited with a code and optional error message. -/
inductive EmptyOutcome where
  | ret : EmptyOutcome
  | helpExit : Nat → Option String → EmptyOutcome
deriving DecidableEq, Repr

/-- The `empty` operation (source lines 361-372): a leading `--help` renders
help and exits 0; any other non-empty argument list renders help with an
unexpected-argument error naming `args[0]` and exits 1; an empty list
returns normally. -/
def emptyRun (args : List String) : EmptyOutcome :=
  if args.head? = some "--help" then .helpExit 0 none
  else if args.length > 0 then
    .helpExit 1 (some ("Unexpected argument: " ++ args.headD "" ++ "."))
  else .ret

/-! ### Helper lemmas -/

theorem objLookup_objInsert_self {α : Type} (d : List (String × α)) (k : String) (v : α) :
    objLookup (objInsert d k v) k = some v := by
  induction d with
  | nil => simp [objInsert, objLookup]
  | cons p rest ih =>
      by_cases h : p.1 = k
      · simp [objInsert, objLookup, h]
      · simp [objInsert, objLookup, h, ih]

theorem objLookup_objInsert_ne {α : Type} (d : List (String × α)) (k k' : String)
    (v : α) (h : k' ≠ k) : objLookup (objInsert d k' v) k = objLookup d k := by
  induction d with
  | nil => simp [objInsert, objLookup, h]
  | cons p rest ih =>
      by_cases hp : p.1 = k'
      · simp [objInsert, objLookup, hp, h]
      · simp only [objInsert, hp, if_false]
        by_cases hk : p.1 = k
        · simp [objLookup, hk]
        · simp [objLookup, hk, ih]

theorem accInsert_lookup_self (d : Data) (k : String) (v : Value) :
    objLookup (accInsert d k v) k =
      some (match objLookup d k with
            | none => .scalar v
            | some (.scalar u) => .array [u, v]
            | some (.array vs) => .array (vs ++ [v])) := by
  unfold accInsert
  cases h : objLookup d k with
  | none => simp [objLookup_objInsert_self]
  | some rv => cases rv <;> simp [objLookup_objInsert_self]

theorem accInsert_lookup_ne (d : Data) (k k' : String) (v : Value) (h : k' ≠ k) :
    objLookup (accInsert d k' v) k = objLookup d k := by
  unfold accInsert
  cases objLookup d k' with
  | none => exact objLookup_objInsert_ne d k k' _ h
  | some rv => cases rv <;> exact objLookup_objInsert_ne d k k' _ h

theorem foldl_accInsert_array (k : String) (vs : List Value) :
    ∀ (d : Data) (l : List Value), objLookup d k = some (.array l) →
      objLookup (vs.foldl (fun d w => accInsert d k w) d) k = some (.array (l ++ vs)) := by
  induction vs with
  | nil => intro d l h; simpa using h
  | cons v vt ih =>
      intro d l h
      have step : objLookup (accInsert d k v) k = some (.array (l ++ [v])) := by
        rw [accInsert_lookup_self, h]
      simpa using ih (accInsert d k v) (l ++ [v]) step

theorem splitNonOptions_not_mem (args : List String) (h : "--" ∉ args) :
    splitNonOptions args = (args, none) := by
  induction args with
  | nil => rfl
  | cons a rest ih =>
      have ha : a ≠ "--" := fun hh => h (hh ▸ List.mem_cons_self a rest)
      have hr : "--" ∉ rest := fun hh => h (List.mem_cons_of_mem a hh)
      simp [splitNonOptions, ha, ih hr]

theorem splitNonOptions_append (pre post : List String) (h : "--" ∉ pre) :
    splitNonOptions (pre ++ "--" :: post) =
      (pre, some (String.intercalate " " post)) := by
  induction pre with
  | nil => simp [splitNonOptions]
  | cons a rest ih =>
      have ha : a ≠ "--" := fun hh => h (hh ▸ List.mem_cons_self a rest)
      have hr : "--" ∉ rest := fun hh => h (List.mem_cons_of_mem a hh)
      simp [splitNonOptions, ha, ih hr]

theorem withNonOptions_variadicGate (no no0 : Option String) (variadic : Option String)
    (fa : String) (d : Data) (r : List String) :
    withNonOptions no (.ok (variadicGate variadic fa d r no0)) =
      .ok (variadicGate variadic fa d r no) := by
  unfold variadicGate
  by_cases hr : r = []
  · simp [hr, withNonOptions]
  · by_cases ha : variadic = some "allow"
    · simp [hr, ha, withNonOptions]
    · by_cases hi : variadic = some "ignore"
      · simp [hr, ha, hi, withNonOptions]
      · simp [hr, ha, hi, withNonOptions]

theorem optionsAfterSplit_withNonOptions (ck : String → String)
    (fields : List FieldSchema) (variadic : Option String) (args : List String)
    (no : Option String) :
    optionsAfterSplit ck fields variadic args no =
      withNonOptions no (optionsAfterSplit ck fields variadic args none) := by
  unfold optionsAfterSplit
  cases buildShortOptions fields with
  | error e => rfl
  | ok so =>
      by_cases hh : args.head? = some "--help"
      · simp [hh, withNonOptions]
      · simp only [hh, if_false]
        cases scanLoop ck fields so args [] [] with
        | helpExit msg => rfl
        | scanned data rest =>
            exact (withNonOptions_variadicGate no none variadic (args.headD "") data rest).symm

theorem optionsAfterSplit_done_nonOptions (ck : String → String)
    (fields : List FieldSchema) (variadic : Option String) (args : List String)
    (no0 no : Option String) (d : Data) (r : List String)
    (h : optionsAfterSplit ck fields variadic args no0 = .ok (.done d r no)) :
    no = no0 := by
  unfold optionsAfterSplit at h
  cases hb : buildShortOptions fields with
  | error e => simp only [hb] at h; exact Except.noConfusion h
  | ok so =>
      simp only [hb] at h
      by_cases hh : args.head? = some "--help"
      · simp [hh] at h
      · simp only [hh, if_false] at h
        cases hs : scanLoop ck fields so args [] [] with
        | helpExit msg =>
            simp only [hs] at h
            exact absurd h (by simp)
        | scanned data rest =>
            simp only [hs, Except.ok.injEq] at h
            unfold variadicGate at h
            by_cases hr : rest = []
            · simp [hr] at h; exact h.2.2.symm
            · by_cases ha : variadic = some "allow"
              · simp [hr, ha] at h; exact h.2.2.symm
              · by_cases hi : variadic = some "ignore"
                · simp [hr, ha, hi] at h; exact h.2.2.symm
                · simp [hr, ha, hi] at h

/-! ### Claim theorems -/

/-- Claim C1 (code bug): the claim says a positional schema whose required
fields form a contiguous prefix — including a prefix of two or more required
fields — constructs successfully, failing only when a required field follows
a non-required one.  The source declares `lastNonRequiredIndex = -1` and
never reassigns it, so the guard `schema.required && idx > lastNonRequiredIndex + 1`
rejects every required field at index 1 or later: a schema of two required
string fields is rejected with `Required arguments must come first.` even
though its required fields are a contiguous prefix, while a single required
field constructs. -/
theorem c1_values_two_required_rejected :
    valuesConstruct .object
        [⟨"host", .string, true, none⟩, ⟨"port", .string, true, none⟩]
      = .error "Required arguments must come first."
    ∧ valuesConstruct .object [⟨"host", .string, true, none⟩] = .ok () := by
  decide

/-- Claim C2 (code bug): the claim says two key-paths sharing a short alias
raise a construction-time error and pairwise-distinct aliases never do.  The
source checks `shortOptions[short]` for the collision but stores the alias
under `shortOptions[keyPath]`, so a genuine duplicate (`alpha` and `beta`
both aliased `v`) passes construction, while distinct aliases falsely
collide when a later alias string equals an earlier alias-bearing key-path
name (`a: short x`, `b: short a`). -/
theorem c2_short_alias_collision_eval :
    optionsRun id
        [⟨"alpha", .string, false, some "v"⟩, ⟨"beta", .string, false, some "v"⟩]
        none []
      = .ok (.done [] [] none)
    ∧ optionsRun id
        [⟨"a", .string, false, some "x"⟩, ⟨"b", .string, false, some "a"⟩]
        none []
      = .error "Short option \"a\" already used." := by
  decide

/-- Claim C3 (code bug): the claim says a `-<alias>` token resolves at any
position, including the second and later such tokens of one invocation.  The
source re-inverts the alias map inside the loop body on every option token,
so the orientation alternates: the first `-v` resolves, but a second `-v`
in the same invocation is rejected as an unknown option. -/
theorem c3_second_short_token_unknown :
    optionsRun id [⟨"verbose", .boolean, false, some "v"⟩] none ["-v"]
      = .ok (.done [("verbose", .scalar (.b true))] [] none)
    ∧ optionsRun id [⟨"verbose", .boolean, false, some "v"⟩] none ["-v", "-v"]
      = .ok (.helpExit 1 (some "Unknown option: -v.")) := by
  decide

/-- Claim C4, counterexample: with schema `{verbose : Boolean}` and input
`["--verbose", "extra2"]`, the leftover rest list is `["extra2"]`, yet the
default `deny` policy reports `args[0]` — the consumed option token
`--verbose` — rather than the first leftover rest token `extra2` the claim
names. -/
theorem c4_deny_names_first_arg_counterexample :
    optionsRun id [⟨"verbose", .boolean, false, some "v"⟩] none
        ["--verbose", "extra2"]
      = .ok (.helpExit 1 (some "Unexpected argument: --verbose."))
    ∧ optionsRun id [⟨"verbose", .boolean, false, some "v"⟩] none
        ["--verbose", "extra2"]
      ≠ .ok (.helpExit 1 (some "Unexpected argument: extra2.")) := by
  decide

/-- Claim C4, amended: after scanning, the variadic policy is applied
exactly once when the leftover `rest` is non-empty — `allow` returns `rest`
unchanged, `ignore` returns it empty, and any other policy (including the
default when none is given) renders help with exit code 1 and an
unexpected-argument error naming the first token of the pre-`--` argument
vector (not the first leftover rest token); when `rest` is empty the policy
has no effect. -/
theorem c4_variadic_policy (ck : String → String) (fields : List FieldSchema)
    (args : List String) (d : Data) (r : List String) (no : Option String)
    (h : optionsRun ck fields (some "allow") args = .ok (.done d r no)) :
    (r ≠ [] →
      optionsRun ck fields (some "ignore") args = .ok (.done d [] no)
      ∧ ∀ v, v ≠ some "allow" → v ≠ some "ignore" →
          optionsRun ck fields v args
            = .ok (.helpExit 1 (some ("Unexpected argument: "
                ++ (splitNonOptions args).1.headD "" ++ "."))))
    ∧ (r = [] → ∀ v, optionsRun ck fields v args = .ok (.done d r no)) := by
  simp only [optionsRun] at h ⊢
  unfold optionsAfterSplit at h ⊢
  cases hb : buildShortOptions fields with
  | error e => simp only [hb] at h; exact Except.noConfusion h
  | ok so =>
      simp only [hb] at h ⊢
      by_cases hh : (splitNonOptions args).1.head? = some "--help"
      · simp [hh] at h
      · simp only [hh, if_false] at h ⊢
        cases hs : scanLoop ck fields so (splitNonOptions args).1 [] [] with
        | helpExit msg =>
            simp only [hs] at h
            exact absurd h (by simp)
        | scanned data rest =>
            simp only [hs] at h ⊢
            have hg : variadicGate (some "allow") ((splitNonOptions args).1.headD "")
                data rest (splitNonOptions args).2
                = .done data rest (splitNonOptions args).2 := by
              unfold variadicGate
              by_cases hr : rest = [] <;> simp [hr]
            rw [hg] at h
            simp only [Except.ok.injEq, OptionsOutcome.done.injEq] at h
            obtain ⟨hd, hrr, hno⟩ := h
            subst hd; subst hrr; subst hno
            constructor
            · intro hne
              constructor
              · unfold variadicGate
                rw [if_pos hne, if_neg (by simp), if_pos rfl]
              · intro v hv1 hv2
                unfold variadicGate
                rw [if_pos hne, if_neg hv1, if_neg hv2]
            · intro he v
              unfold variadicGate
              simp [he]

/-- Claim C5: the `options` operation splits at the first literal `--`
token before any scanning — the outcome on `pre ++ "--" :: post` equals the
outcome on `pre` alone with the joined `post` installed as `nonOptions`, so
no token after the separator is ever interpreted as an option — and when no
`--` token is present a normal return carries `nonOptions = none`. -/
theorem c5_nonoptions_split (ck : String → String) (fields : List FieldSchema)
    (variadic : Option String) :
    (∀ pre post : List String, "--" ∉ pre →
      optionsRun ck fields variadic (pre ++ "--" :: post)
        = withNonOptions (some (String.intercalate " " post))
            (optionsRun ck fields variadic pre))
    ∧ (∀ (args : List String) (d : Data) (r : List String) (no : Option String),
        "--" ∉ args → optionsRun ck fields variadic args = .ok (.done d r no) →
        no = none) := by
  constructor
  · intro pre post hpre
    simp only [optionsRun]
    rw [splitNonOptions_append pre post hpre, splitNonOptions_not_mem pre hpre]
    exact optionsAfterSplit_withNonOptions ck fields variadic pre _
  · intro args d r no hargs h
    simp only [optionsRun] at h
    rw [splitNonOptions_not_mem args hargs] at h
    exact optionsAfterSplit_done_nonOptions ck fields variadic args none no d r h

/-- Claim C6: the raw data handed to the validator accumulates repeated
occurrences of one key-path as the spec prescribes — a scalar after one
occurrence, the two-element sequence after a second, appending thereafter,
in first-seen order — and accumulation for other key-paths leaves the key
untouched. -/
theorem c6_accumulation (data : Data) (k : String) (vs : List Value)
    (hne : vs ≠ []) (h0 : objLookup data k = none) :
    objLookup (vs.foldl (fun d w => accInsert d k w) data) k
      = some (specAccumulated vs)
    ∧ ∀ (d : Data) (k' : String) (w : Value), k' ≠ k →
        objLookup (accInsert d k' w) k = objLookup d k := by
  constructor
  · match vs, hne with
    | [v], _ =>
        simp only [List.foldl]
        rw [accInsert_lookup_self, h0]
        rfl
    | v :: w :: t, _ =>
        have h1 : objLookup (accInsert data k v) k = some (.scalar v) := by
          rw [accInsert_lookup_self, h0]
        have h2 : objLookup (accInsert (accInsert data k v) k w) k
            = some (.array [v, w]) := by
          rw [accInsert_lookup_self, h1]
        have h3 := foldl_accInsert_array k t (accInsert (accInsert data k v) k w)
          [v, w] h2
        have h4 : specAccumulated (v :: w :: t) = .array (v :: w :: t) := rfl
        rw [h4]
        simpa using h3
  · intro d k' w hk
    exact accInsert_lookup_ne d k k' w hk

/-- Claim C7: a resolved non-boolean option token consumes exactly the one
immediately following token as its value — scanning resumes after that
token — and when no following token exists or that token starts with `--`
the scan fails with the missing-argument error (a token starting with a
single `-` is accepted as the value). -/
theorem c7_value_consumption (ck : String → String) (fields : List FieldSchema)
    (so : List (String × String)) (a : String) (args : List String)
    (data : Data) (rest : List String) (key : String)
    (hdash : a.data.take 1 = ['-'])
    (hkey : resolveKey ck (objInvert so) a = key)
    (hknown : keyIsKnown fields key = true)
    (htype : keyType fields key ≠ .boolean) :
    (args = [] → scanLoop ck fields so (a :: args) data rest
        = .helpExit ("Argument missing for option: " ++ a ++ "."))
    ∧ (∀ v args2, args = v :: args2 → v.data.take 2 = ['-', '-'] →
        scanLoop ck fields so (a :: args) data rest
          = .helpExit ("Argument missing for option: " ++ a ++ "."))
    ∧ (∀ v args2, args = v :: args2 → v.data.take 2 ≠ ['-', '-'] →
        scanLoop ck fields so (a :: args) data rest
          = scanLoop ck fields (objInvert so) args2
              (accInsert data key (.s v)) rest) := by
  have hclass : classifyToken ck fields (objInvert so) a = .valueOpt key := by
    simp [classifyToken, hdash, hkey, hknown, htype]
  refine ⟨?_, ?_, ?_⟩
  · rintro rfl
    simp [scanLoop, hclass]
  · rintro v args2 rfl hv
    simp [scanLoop, hclass, hv]
  · rintro v args2 rfl hv
    simp [scanLoop, hclass, hv]

/-- Claim C8: a resolved option token whose key-path's declared type is
boolean contributes exactly the value `true` and consumes no token beyond
the flag itself — scanning continues with the very next token of the
vector. -/
theorem c8_boolean_flag (ck : String → String) (fields : List FieldSchema)
    (so : List (String × String)) (a : String) (args : List String)
    (data : Data) (rest : List String) (key : String)
    (hdash : a.data.take 1 = ['-'])
    (hkey : resolveKey ck (objInvert so) a = key)
    (hknown : keyIsKnown fields key = true)
    (htype : keyType fields key = .boolean) :
    scanLoop ck fields so (a :: args) data rest
      = scanLoop ck fields (objInvert so) args
          (accInsert data key (.b true)) rest := by
  have hclass : classifyToken ck fields (objInvert so) a = .boolOpt key := by
    simp [classifyToken, hdash, hkey, hknown, htype]
  cases args with
  | nil => simp [scanLoop, hclass]
  | cons v args2 => simp [scanLoop, hclass]

/-- Claim C9: calling the `command` operation with an empty remaining
argument list renders help whose command list is sorted ascending by
case-converted name and exits with code 0 (no error message); the listed
rows are a permutation of the command table's converted entries. -/
theorem c9_empty_args_help_sorted (ck ck2 : String → String)
    (commands : List (String × Option String)) :
    ∃ entries : List (String × String),
      commandRun ck ck2 commands [] = .helpExit 0 entries none
      ∧ List.Sorted nameLe entries
      ∧ entries.Perm (commands.map (fun c => (ck2 c.1, c.2.getD "No description"))) := by
  refine ⟨commandList ck2 commands, rfl, ?_, ?_⟩
  · exact List.sorted_insertionSort nameLe _
  · exact List.perm_insertionSort nameLe _

/-- Claim C10: the `empty` operation renders help and exits 0 on a leading
`--help`, renders help with an unexpected-argument error naming the first
token and exits 1 on any other non-empty argument list, and returns
normally on an empty list. -/
theorem c10_empty_contract (args : List String) :
    (args.head? = some "--help" → emptyRun args = .helpExit 0 none)
    ∧ (args.head? ≠ some "--help" → args ≠ [] →
        emptyRun args
          = .helpExit 1 (some ("Unexpected argument: " ++ args.headD "" ++ ".")))
    ∧ emptyRun [] = .ret := by
  refine ⟨?_, ?_, rfl⟩
  · intro h
    simp [emptyRun, h]
  · intro h1 h2
    have hlen : args.length > 0 := by
      cases args with
      | nil => exact absurd rfl h2
      | cons a t => simp
    simp [emptyRun, h1, hlen]

/-! ### Witnesses -/

/-- Witness for claim C4's amended theorem at schema `{verbose : Boolean}`
and input `["--verbose", "extra2"]`. -/
theorem c4_variadic_policy_witness :
    optionsRun id [⟨"verbose", .boolean, false, some "v"⟩] (some "ignore")
        ["--verbose", "extra2"]
      = .ok (.done [("verbose", .scalar (.b true))] [] none)
    ∧ optionsRun id [⟨"verbose", .boolean, false, some "v"⟩] none
        ["--verbose", "extra2"]
      = .ok (.helpExit 1 (some ("Unexpected argument: "
          ++ (splitNonOptions ["--verbose", "extra2"]).1.headD "" ++ "."))) := by
  have h := c4_variadic_policy id [⟨"verbose", .boolean, false, some "v"⟩]
    ["--verbose", "extra2"] [("verbose", .scalar (.b true))] ["extra2"] none
    (by decide)
  have h2 := h.1 (by decide)
  exact ⟨h2.1, h2.2 none (by decide) (by decide)⟩

/-- Witness for claim C5's theorem: the split at `["a", "--", "b", "c"]` and
the absent-separator case at `["a"]`. -/
theorem c5_nonoptions_split_witness :
    optionsRun id [] (some "allow") (["a"] ++ "--" :: ["b", "c"])
      = withNonOptions (some (String.intercalate " " ["b", "c"]))
          (optionsRun id [] (some "allow") ["a"])
    ∧ (none : Option String) = none :=
  ⟨(c5_nonoptions_split id [] (some "allow")).1 ["a"] ["b", "c"] (by decide),
   (c5_nonoptions_split id [] (some "allow")).2 ["a"] [] ["a"] none
     (by decide) (by decide)⟩

/-- Witness for claim C6's theorem: three occurrences of key `k` on top of
unrelated existing data, and the frame property for a different key. -/
theorem c6_accumulation_witness :
    objLookup ([Value.s "1", Value.s "2", Value.s "3"].foldl
        (fun d w => accInsert d "k" w) [("other", RawValue.scalar (Value.s "z"))]) "k"
      = some (specAccumulated [Value.s "1", Value.s "2", Value.s "3"])
    ∧ objLookup (accInsert [] "j" (Value.s "x")) "k" = objLookup ([] : Data) "k" :=
  ⟨(c6_accumulation [("other", RawValue.scalar (Value.s "z"))] "k"
      [Value.s "1", Value.s "2", Value.s "3"] (by decide) (by decide)).1,
   (c6_accumulation [("other", RawValue.scalar (Value.s "z"))] "k"
      [Value.s "1"] (by decide) (by decide)).2 [] "j" (Value.s "x") (by decide)⟩

/-- Witness for claim C7's theorem at the long option `--name` of a
string-typed key: missing value at end of vector, a `--…` follower rejected,
and a single-dash follower `-x` consumed as the value. -/
theorem c7_value_consumption_witness :
    scanLoop id [⟨"name", .string, false, none⟩] [] ["--name"] [] []
      = .helpExit ("Argument missing for option: " ++ "--name" ++ ".")
    ∧ scanLoop id [⟨"name", .string, false, none⟩] [] ["--name", "--x"] [] []
      = .helpExit ("Argument missing for option: " ++ "--name" ++ ".")
    ∧ scanLoop id [⟨"name", .string, false, none⟩] [] ["--name", "-x"] [] []
      = scanLoop id [⟨"name", .string, false, none⟩] (objInvert []) []
          (accInsert [] "name" (.s "-x")) [] :=
  ⟨(c7_value_consumption id [⟨"name", .string, false, none⟩] [] "--name" [] [] []
      "name" (by decide) (by decide) (by decide) (by decide)).1 rfl,
   (c7_value_consumption id [⟨"name", .string, false, none⟩] [] "--name" ["--x"] [] []
      "name" (by decide) (by decide) (by decide) (by decide)).2.1 "--x" [] rfl (by decide),
   (c7_value_consumption id [⟨"name", .string, false, none⟩] [] "--name" ["-x"] [] []
      "name" (by decide) (by decide) (by decide) (by decide)).2.2 "-x" [] rfl (by decide)⟩

/-- Witness for claim C8's theorem at the short alias token `-v` of a
boolean key, with a following token left for the next scan step. -/
theorem c8_boolean_flag_witness :
    scanLoop id [⟨"verbose", .boolean, false, some "v"⟩] [("verbose", "v")]
        ["-v", "next"] [] []
      = scanLoop id [⟨"verbose", .boolean, false, some "v"⟩]
          (objInvert [("verbose", "v")]) ["next"]
          (accInsert [] "verbose" (.b true)) [] :=
  c8_boolean_flag id [⟨"verbose", .boolean, false, some "v"⟩] [("verbose", "v")]
    "-v" ["next"] [] [] "verbose" (by decide) (by decide) (by decide) (by decide)

/-- Witness for claim C10's theorem at `["--help"]`, `["stray"]` and `[]`. -/
theorem c10_empty_contract_witness :
    emptyRun ["--help"] = .helpExit 0 none
    ∧ emptyRun ["stray"]
        = .helpExit 1 (some ("Unexpected argument: "
            ++ (["stray"] : List String).headD "" ++ "."))
    ∧ emptyRun [] = .ret :=
  ⟨(c10_empty_contract ["--help"]).1 rfl,
   (c10_empty_contract ["stray"]).2.1 (by decide) (by decide),
   (c10_empty_contract []).2.2⟩

end ArgsEngine
